import Mathlib

/-!
# Verification of the Dubbing Studio audio core

Shallow embedding of the audio compositing / encoding pipeline and of the
audio-video sync controller of the Dubbing Studio repository
(`src/App.tsx`, `src/components/DubbedVideoPlayer.tsx`), together with
theorems settling the specification claims about them.

Modelling conventions:
* JavaScript numbers that hold audio samples, times and durations are
  modelled as rationals (`ℚ`); every concrete input used in a theorem is a
  dyadic rational with few mantissa bits, on which the JS double / Float32
  operations involved (clamp, multiply by 32767/32768, truncate, divide by
  32768) are exact, so the rational model agrees with the floating-point
  evaluation at those points.
* Byte buffers are `List Nat` (each entry a byte value), 16-bit samples are
  `Int`.
* Host-environment calls (base64 `atob`, `AudioContext.createBuffer`,
  `OfflineAudioContext` rendering) are modelled as the buffer operations
  they perform, keeping their specified error behaviour:
  `new Int16Array(buffer)` keeps its ECMAScript semantics, including the
  `RangeError` thrown when the byte length is not a multiple of 2, and
  `createBuffer` / the `OfflineAudioContext` constructor keep the
  `NotSupportedError` the Web Audio specification mandates for a zero
  buffer length or an out-of-range channel count.
-/

/-- A decoded audio buffer: the model of the Web Audio `AudioBuffer`
(`numberOfChannels` channels of float samples at a sample rate). -/
structure AudioBuffer where
  sampleRate : Nat
  channelData : List (List ℚ)
deriving DecidableEq, Repr

/-- `AudioBuffer.length` (frames per channel). All channels of a buffer
created by `createBuffer` have the same length, so we read channel 0. -/
def AudioBuffer.frameLen (b : AudioBuffer) : Nat :=
  (b.channelData.headD []).length

/-- `AudioBuffer.numberOfChannels`. -/
def AudioBuffer.numChannels (b : AudioBuffer) : Nat :=
  b.channelData.length

/-- `AudioBuffer.duration = length / sampleRate` (seconds). -/
def AudioBuffer.duration (b : AudioBuffer) : ℚ :=
  (b.frameLen : ℚ) / (b.sampleRate : ℚ)

/-- Reassemble one signed 16-bit little-endian sample from two bytes,
as `new Int16Array(data.buffer)` views a pair of bytes. -/
def int16FromBytes (lo hi : Nat) : Int :=
  let v := lo % 256 + 256 * (hi % 256)
  if v < 32768 then (v : Int) else (v : Int) - 65536

/-- `new Int16Array(data.buffer)` (App.tsx line 29): views the byte buffer
as 16-bit LE integers.  Per ECMAScript semantics this construction throws a
`RangeError` when the byte length is not a multiple of the element size 2;
that case is `none`. -/
def bytesToInt16 : List Nat → Option (List Int)
  | [] => some []
  | [_] => none
  | lo :: hi :: rest => (bytesToInt16 rest).map (fun l => int16FromBytes lo hi :: l)

/-- The decoder's per-sample conversion (App.tsx line 36):
`channelData[i] = dataInt16[i * numChannels + channel] / 32768.0`. -/
def decodeSample (v : Int) : ℚ := (v : ℚ) / 32768

/-- `decodeAudioData` (App.tsx lines 23–40).  `frameCount` is
`dataInt16.length / numChannels`: in JS this division can be fractional,
but `createBuffer` truncates its `length` argument to an integer and the
copy loop's writes beyond the channel length are discarded (out-of-range
typed-array stores are no-ops), so the observable buffer has
`⌊samples / channels⌋` frames; `Nat` division models that directly.
`ctx.createBuffer(numChannels, frameCount, sampleRate)` (line 31) throws
`NotSupportedError` per the Web Audio specification when the channel
count is outside [1, 32] or the (truncated) length is zero — in
particular on a zero-length input. -/
def decodeAudioData (data : List Nat) (sampleRate numChannels : Nat) :
    Except String AudioBuffer :=
  match bytesToInt16 data with
  | none => Except.error ("byte length of Int16Array should be a multiple of 2")
  | some dataInt16 =>
    let frameCount := dataInt16.length / numChannels
    if numChannels = 0 ∨ 32 < numChannels then
      Except.error ("NotSupportedError: unsupported channel count in createBuffer")
    else if frameCount = 0 then
      Except.error ("NotSupportedError: zero frame length in createBuffer")
    else
      Except.ok
        { sampleRate := sampleRate
          channelData :=
            (List.range numChannels).map (fun channel =>
              (List.range frameCount).map (fun i =>
                decodeSample (dataInt16.getD (i * numChannels + channel) 0))) }

/-- Frame count reported by a successful decode (`none` on error). -/
def decodedFrames (e : Except String AudioBuffer) : Option Nat :=
  e.toOption.map AudioBuffer.frameLen

/-- The clamp of `bufferToWav` (App.tsx line 80):
`Math.max(-1, Math.min(1, channels[i][offset]))`. -/
def clampSample (x : ℚ) : ℚ := max (-1) (min 1 x)

/-- JS `| 0` truncation toward zero of a (finite, in-range) number. -/
def jsTrunc (q : ℚ) : Int := if q < 0 then -(Int.floor (-q)) else Int.floor q

/-- The wrap-around to a signed 32-bit integer that `| 0` performs
(`ToInt32`); a no-op on the 16-bit-range values produced here. -/
def toInt32 (n : Int) : Int := (n + 2147483648) % 4294967296 - 2147483648

/-- The sample scaling of `bufferToWav` (App.tsx lines 80–81):
`sample = Math.max(-1, Math.min(1, s)); sample = (0.5 + sample < 0 ?
sample * 32768 : sample * 32767) | 0`.  Note the condition parses as
`(0.5 + sample) < 0`, i.e. it tests `sample < -0.5`, not `sample < 0`. -/
def scale16 (x : ℚ) : Int :=
  let s := clampSample x
  if (1 / 2 : ℚ) + s < 0 then toInt32 (jsTrunc (s * 32768))
  else toInt32 (jsTrunc (s * 32767))

/-- Two little-endian bytes of a 16-bit value; `DataView.setInt16` wraps
the stored value modulo 2^16. -/
def int16LE (i : Int) : List Nat :=
  let v := (i % 65536).toNat
  [v % 256, v / 256]

/-- Four little-endian bytes of `setUint32` (value taken mod 2^32). -/
def uint32LE (n : Nat) : List Nat :=
  [n % 256, n / 256 % 256, n / 65536 % 256, n / 16777216 % 256]

/-- Two little-endian bytes of `setUint16` (value taken mod 2^16). -/
def uint16LE (n : Nat) : List Nat :=
  [n % 256, n / 256 % 256]

/-- The 44-byte RIFF/WAVE header written by `bufferToWav`
(App.tsx lines 54–71), field for field. -/
def wavHeader (b : AudioBuffer) : List Nat :=
  let numOfChan := b.numChannels
  let len := b.frameLen * numOfChan * 2 + 44
  uint32LE 0x46464952 ++      -- "RIFF"
  uint32LE (len - 8) ++       -- file length - 8
  uint32LE 0x45564157 ++      -- "WAVE"
  uint32LE 0x20746d66 ++      -- "fmt "
  uint32LE 16 ++              -- chunk size
  uint16LE 1 ++               -- format (linear PCM)
  uint16LE numOfChan ++
  uint32LE b.sampleRate ++
  uint32LE (b.sampleRate * 2 * numOfChan) ++  -- byte rate
  uint16LE (numOfChan * 2) ++ -- block align
  uint16LE 16 ++              -- bits per sample
  uint32LE 0x61746164 ++      -- "data"
  uint32LE (len - 44)         -- data chunk length (= length - pos - 4 at pos 40)

/-- One frame of the interleaved PCM payload: the inner `for` loop of
`bufferToWav` over channels at a fixed frame `offset`. -/
def frameBytes (channels : List (List ℚ)) (offset : Nat) : List Nat :=
  (channels.map (fun chan => int16LE (scale16 (chan.getD offset 0)))).flatten

/-- The full PCM payload: the `while (pos < length)` loop of `bufferToWav`
(App.tsx lines 78–86), which advances `offset` once per frame and stops
after exactly `frames` frames. -/
def pcmBytes (channels : List (List ℚ)) (frames : Nat) : List Nat :=
  ((List.range frames).map (fun off => frameBytes channels off)).flatten

/-- `bufferToWav` (App.tsx lines 43–99): header followed by the
interleaved 16-bit payload. -/
def bufferToWav (b : AudioBuffer) : List Nat :=
  wavHeader b ++ pcmBytes b.channelData b.frameLen

/-- The scaling rule exactly as the specification states it (claim C1):
clamp, then scale negative values by 32768 and non-negative values by
32767, truncating toward zero. -/
def specScaleSample (x : ℚ) : Int :=
  let s := clampSample x
  if s < 0 then jsTrunc (s * 32768) else jsTrunc (s * 32767)

/-- The amended scaling rule: clamp, then scale values below `-0.5` by
32768 and values `≥ -0.5` by 32767, truncating toward zero. -/
def specScaleSampleAmended (x : ℚ) : Int :=
  let s := clampSample x
  if s < -(1 / 2) then jsTrunc (s * 32768) else jsTrunc (s * 32767)

/-! ## Timeline compositing (`stitchAudio`, App.tsx lines 116–152)

The input segments carry the synthesized audio as raw bytes (the source
holds them base64-encoded and decodes them with the host's `atob`; base64
transport is outside the claims, so the model works on the decoded
bytes). -/

/-- One `{ audioB64, startTime }` element of `stitchAudio`'s input, with
the base64 payload already turned into bytes. -/
structure StitchSegment where
  audioBytes : List Nat
  startTime : ℚ
deriving DecidableEq, Repr

/-- The decode of every segment (the `Promise.all(segments.map ...)` of
App.tsx lines 120–130): each is decoded at 24 kHz mono and paired with its
start time.  A decode failure rejects the whole operation. -/
def decodeSegments : List StitchSegment → Except String (List (AudioBuffer × ℚ))
  | [] => Except.ok []
  | segment :: rest =>
    match decodeAudioData segment.audioBytes 24000 1 with
    | Except.error e => Except.error e
    | Except.ok b => (decodeSegments rest).map (fun l => (b, segment.startTime) :: l)

/-- The `maxDuration` accumulation of App.tsx lines 117–127: starting from
`0`, each segment raises it to `startTime + buffer.duration` when that is
larger. -/
def maxDurationOf (decoded : List (AudioBuffer × ℚ)) : ℚ :=
  decoded.foldl (fun m p => max m (p.2 + p.1.duration)) 0

/-- The `OfflineAudioContext` length (App.tsx line 135):
`Math.ceil(maxDuration * 24000)`. -/
def totalLength (maxDuration : ℚ) : Nat :=
  (Int.ceil (maxDuration * 24000)).toNat

/-- `source.start(startTime)`: the output frame at which a segment is
placed (nearest sample boundary). -/
def startFrameOf (startTime : ℚ) : Nat :=
  (Int.floor (startTime * 24000 + 1 / 2)).toNat

/-- The offline render (App.tsx lines 133–148) once the
`OfflineAudioContext` constructor has accepted a non-zero length (that
guard lives in `stitchAudio`): a single-channel buffer of `totalLength`
frames in which every segment's samples are added at its start frame
(sources feeding one destination mix additively). -/
def renderOffline (decoded : List (AudioBuffer × ℚ)) : AudioBuffer :=
  let len := totalLength (maxDurationOf decoded)
  { sampleRate := 24000
    channelData :=
      [(List.range len).map (fun i =>
        decoded.foldl (fun acc p =>
          let start := startFrameOf p.2
          let chan := p.1.channelData.headD []
          acc + (if start ≤ i ∧ i < start + chan.length then chan.getD (i - start) 0 else 0)) 0)] }

/-- `stitchAudio` (App.tsx lines 116–152): decode all segments, render
them into one track, and encode it as a WAV byte stream.  The
`OfflineAudioContext` constructor (lines 133–137) throws
`NotSupportedError` per the Web Audio specification when its `length` is
zero, which happens exactly when `Math.ceil(maxDuration * 24000) = 0` —
in particular for the empty segment list, whose `maxDuration` stays 0. -/
def stitchAudio (segments : List StitchSegment) : Except String (List Nat) :=
  match decodeSegments segments with
  | Except.error e => Except.error e
  | Except.ok decoded =>
    if totalLength (maxDurationOf decoded) = 0 then
      Except.error ("NotSupportedError: zero length in OfflineAudioContext")
    else
      Except.ok (bufferToWav (renderOffline decoded))

/-- The end times `startTime_i + duration_i` of the decoded segments. -/
def endTimes (decoded : List (AudioBuffer × ℚ)) : List ℚ :=
  decoded.map (fun p => p.2 + p.1.duration)

/-- The specification's `max(startTime_i + duration_i)` over a non-empty
segment list, stated in the spec's words: the greatest end time. -/
def listMax (l : List ℚ) : ℚ :=
  l.foldl max (l.headD 0)

/-! ## The AV sync controller (`DubbedVideoPlayer.tsx`)

The component state together with the host scheduler: `outstanding` is
the host's set of pending `requestAnimationFrame` callbacks (each a
one-shot token), `frameId` is the component's `animationFrameId.current`
ref, and `nextId` the host's id counter (handles are positive and fresh).
`unmounted` records that the cleanup ran: React nulls the element refs
and the listeners are removed, so the handlers' ref guards fail. -/

structure DVPState where
  videoTime : ℚ
  audioTime : ℚ
  videoPaused : Bool
  audioPaused : Bool
  frameId : Option Nat
  outstanding : List Nat
  nextId : Nat
  unmounted : Bool
deriving DecidableEq, Repr

/-- The state before any event: nothing scheduled, transports at rest. -/
def initState : DVPState :=
  { videoTime := 0, audioTime := 0, videoPaused := true, audioPaused := true
    frameId := none, outstanding := [], nextId := 1, unmounted := false }

/-- `if (animationFrameId.current) cancelAnimationFrame(...)`: remove the
ref's token from the host's pending set (a no-op for a stale token). -/
def cancelFrame (s : DVPState) : DVPState :=
  match s.frameId with
  | none => s
  | some t => { s with outstanding := s.outstanding.erase t }

/-- `animationFrameId.current = requestAnimationFrame(syncLoop)`: the host
hands out a fresh token, schedules it, and the ref stores it. -/
def requestFrame (s : DVPState) : DVPState :=
  { s with outstanding := s.outstanding ++ [s.nextId]
           frameId := some s.nextId
           nextId := s.nextId + 1 }

/-- The drift correction inside `syncLoop` (DubbedVideoPlayer.tsx lines
20–24): hard-set the audio position to the video position only when
`|videoTime - audioTime| > 0.25`. -/
def driftCorrect (s : DVPState) : DVPState :=
  if 1 / 4 < |s.videoTime - s.audioTime| then { s with audioTime := s.videoTime } else s

/-- `syncLoop` (DubbedVideoPlayer.tsx lines 15–28): when the refs are live
and the video is not paused, correct drift and reschedule; otherwise do
nothing (the loop dies). -/
def syncLoopBody (s : DVPState) : DVPState :=
  if s.unmounted = false ∧ s.videoPaused = false then requestFrame (driftCorrect s) else s

/-- `handlePlay` (lines 30–43): initial hard sync, start the audio, cancel
any pending token, then schedule the loop. -/
def handlePlay (s : DVPState) : DVPState :=
  if s.unmounted = false then
    requestFrame (cancelFrame { s with audioTime := s.videoTime, audioPaused := false })
  else s

/-- `handlePauseOrEnd` (lines 45–54): pause the audio and cancel the
pending token. -/
def handlePauseOrEnd (s : DVPState) : DVPState :=
  if s.unmounted = false then cancelFrame { s with audioPaused := true } else s

/-- `handleSeeked` (lines 56–60): unconditionally set the audio position
to the video position. -/
def handleSeeked (s : DVPState) : DVPState :=
  if s.unmounted = false then { s with audioTime := s.videoTime } else s

/-- The cleanup returned by the `useEffect` (lines 70–79): cancel the
pending token and tear the pairing down. -/
def unmountCleanup (s : DVPState) : DVPState :=
  cancelFrame { s with unmounted := true }

/-- The states the controller can reach: every transport event runs its
source handler (the `play` / `pause` / `ended` / `seeked` listeners are
active until the cleanup removes them), the host may fire any pending
animation-frame token, playback may move both positions freely, and the
pairing may be torn down. -/
inductive Reachable : DVPState → Prop where
  | init : Reachable initState
  | play {s} : Reachable s → s.unmounted = false →
      Reachable (handlePlay { s with videoPaused := false })
  | pause {s} : Reachable s → s.unmounted = false →
      Reachable (handlePauseOrEnd { s with videoPaused := true })
  | ended {s} : Reachable s → s.unmounted = false →
      Reachable (handlePauseOrEnd { s with videoPaused := true })
  | seeked {s} (t : ℚ) : Reachable s → s.unmounted = false →
      Reachable (handleSeeked { s with videoTime := t })
  | frame {s} (t : Nat) : Reachable s → t ∈ s.outstanding →
      Reachable (syncLoopBody { s with outstanding := s.outstanding.erase t })
  | transport {s} (v a : ℚ) : Reachable s →
      Reachable { s with videoTime := v, audioTime := a }
  | unmount {s} : Reachable s → s.unmounted = false →
      Reachable (unmountCleanup s)

/-! ## Dub generation (`handleGenerateDub`, App.tsx lines 284–337) and
segment preview (`handlePreviewSegment`, lines 229–282)

`timedScript` is the list of timed chunks, `customDialog` the per-index
edited dialog (a JS `Record<number, string>`, so a partial map),
`speakerVoiceMap` the per-speaker voice assignment, `mutedSegments` the
per-index mute flags (a missing entry is `false`), and `tts` the
speech-synthesis collaborator: text and voice in, audio bytes out (`none`
models the service returning no audio).  Base64 transport between the
collaborator and `stitchAudio` is collapsed, as in `StitchSegment`. -/

/-- One element of the timed script (`TimedChunk` in types.ts; the source
field `end` is `endTime` here because `end` is a Lean keyword; `gender` is
presentation-only and omitted). -/
structure TimedChunk where
  start : ℚ
  endTime : ℚ
  text : String
  speaker : String
deriving DecidableEq, Repr

/-- JS truthiness of `speakerVoiceMap[speakerId]`: `undefined` (here
`none`) and the empty string are falsy. -/
def falsyVoice : Option String → Bool
  | none => true
  | some s => s.isEmpty

/-- `customDialog[index] || chunk.text` (App.tsx lines 241 and 303): the
custom dialog when it is present and non-empty (truthy), otherwise the
chunk's transcript text. -/
def textToGenerate (custom : Option String) (orig : String) : String :=
  match custom with
  | some s => if s = "" then orig else s
  | none => orig

/-- `textToGenerate.trim() ? textToGenerate : "."` (App.tsx lines 251 and
311): a period stands in for text whose trim is empty, i.e. text in which
every character is whitespace (the trimmed string is falsy exactly when
nothing but whitespace was there to strip). -/
def finalTextOf (t : String) : String :=
  if t.toList.all Char.isWhitespace then "." else t

/-- The first unmuted chunk whose speaker has a falsy voice assignment,
scanning the script in index order from index `i`.  This is the rejection
`Promise.all` reports: every async segment body runs synchronously up to
its first `await`, so the `if (!voiceId) throw ...` checks (App.tsx lines
307–309) all settle before any synthesis result, and the lowest-index
missing-voice rejection wins. -/
def firstMissingVoice (voiceMap : String → Option String) (muted : Nat → Bool) :
    List TimedChunk → Nat → Option String
  | [], _ => none
  | c :: rest, i =>
    if muted i then firstMissingVoice voiceMap muted rest (i + 1)
    else if falsyVoice (voiceMap c.speaker) then some c.speaker
    else firstMissingVoice voiceMap muted rest (i + 1)

/-- Speech synthesis for the unmuted chunks from index `i` on, in index
order (App.tsx lines 296–319 after the voice checks have all passed):
each chunk's final text is synthesized with its speaker's voice, a `null`
synthesis result rejects with the segment's text, and a success
contributes `{ audioB64, startTime }`. -/
def generateSegmentsAux (dialog : Nat → Option String) (voiceMap : String → Option String)
    (muted : Nat → Bool) (tts : String → String → Option (List Nat)) :
    List TimedChunk → Nat → Except String (List StitchSegment)
  | [], _ => Except.ok []
  | c :: rest, i =>
    if muted i then generateSegmentsAux dialog voiceMap muted tts rest (i + 1)
    else
      let text := finalTextOf (textToGenerate (dialog i) c.text)
      match tts text ((voiceMap c.speaker).getD "") with
      | none => Except.error ("Failed to generate audio for segment: \"" ++ text ++ "\"")
      | some bytes =>
        (generateSegmentsAux dialog voiceMap muted tts rest (i + 1)).map
          (fun l => { audioBytes := bytes, startTime := c.start } :: l)

/-- The `Promise.all(segmentsToGenerate.map ...)` of App.tsx lines
301–319: a missing voice assignment rejects first (naming the speaker),
otherwise the synthesized segments are collected in timeline order. -/
def generateSegments (script : List TimedChunk) (dialog : Nat → Option String)
    (voiceMap : String → Option String) (muted : Nat → Bool)
    (tts : String → String → Option (List Nat)) : Except String (List StitchSegment) :=
  match firstMissingVoice voiceMap muted script 0 with
  | some speaker =>
    Except.error ("No voice selected for " ++ speaker ++ ". Please select a voice.")
  | none => generateSegmentsAux dialog voiceMap muted tts script 0

/-- The outcome of `handleGenerateDub` (App.tsx lines 284–337) as the pair
(error message, dubbed WAV bytes): `setDubbedAudioUrl(null)` runs first,
any rejection lands in `setError` with the result unset, and only a fully
stitched track sets the result. -/
def handleGenerateDub (script : List TimedChunk) (dialog : Nat → Option String)
    (voiceMap : String → Option String) (muted : Nat → Bool)
    (tts : String → String → Option (List Nat)) : Option String × Option (List Nat) :=
  if script.isEmpty then
    (some ("Please provide a script to generate the dubbing."), none)
  else
    match generateSegments script dialog voiceMap muted tts with
    | Except.error e => (some e, none)
    | Except.ok segments =>
      match stitchAudio segments with
      | Except.error e => (some e, none)
      | Except.ok wav => (none, some wav)

/-- The synthesis request `handlePreviewSegment` sends for segment `i`
(App.tsx lines 240–252): the same text selection as dub generation, with
the chunk's speaker's assigned voice; `none` when the index is out of
range or the speaker has no (truthy) voice (the alert path). -/
def previewRequest (script : List TimedChunk) (dialog : Nat → Option String)
    (voiceMap : String → Option String) (i : Nat) : Option (String × String) :=
  match script.get? i with
  | none => none
  | some chunk =>
    match voiceMap chunk.speaker with
    | none => none
    | some voiceId =>
      if voiceId.isEmpty then none
      else some (finalTextOf (textToGenerate (dialog i) chunk.text), voiceId)

/-! ## Helper lemmas on the sample scaling -/

lemma clampSample_mem (x : ℚ) : -1 ≤ clampSample x ∧ clampSample x ≤ 1 := by
  unfold clampSample
  constructor
  · exact le_max_left _ _
  · exact max_le (by norm_num) (min_le_left _ _)

lemma toInt32_eq_self {n : Int} (h1 : -2147483648 ≤ n) (h2 : n < 2147483648) :
    toInt32 n = n := by
  unfold toInt32
  omega

lemma jsTrunc_bound (q : ℚ) (m : ℕ) (h : |q| ≤ (m : ℚ)) :
    -(m : ℤ) ≤ jsTrunc q ∧ jsTrunc q ≤ (m : ℤ) := by
  obtain ⟨hl, hu⟩ := abs_le.mp h
  unfold jsTrunc
  split
  · next hq =>
    have h1 : Int.floor (-q) ≤ (m : ℤ) := by
      calc Int.floor (-q) ≤ Int.floor ((m : ℚ)) := Int.floor_le_floor (by linarith)
        _ = (m : ℤ) := Int.floor_natCast m
    have h2 : 0 ≤ Int.floor (-q) := Int.floor_nonneg.mpr (by linarith)
    omega
  · next hq =>
    have h1 : Int.floor q ≤ (m : ℤ) := by
      calc Int.floor q ≤ Int.floor ((m : ℚ)) := Int.floor_le_floor hu
        _ = (m : ℤ) := Int.floor_natCast m
    have h2 : 0 ≤ Int.floor q := Int.floor_nonneg.mpr (by linarith)
    omega

/-- On clamped samples the `| 0` wrap-around is the identity, so the
encoder's scaling is: clamp, compare against `-0.5`, scale by 32768 below
it and by 32767 at or above it, truncate toward zero. -/
lemma scale16_eq_amended (x : ℚ) : scale16 x = specScaleSampleAmended x := by
  unfold scale16 specScaleSampleAmended
  obtain ⟨hl, hu⟩ := clampSample_mem x
  set s := clampSample x with hs
  have habs : |s| ≤ (1 : ℚ) := abs_le.mpr ⟨hl, hu⟩
  have h8 : |s * 32768| ≤ ((32768 : ℕ) : ℚ) := by
    rw [abs_mul]
    calc |s| * |(32768 : ℚ)| ≤ 1 * |(32768 : ℚ)| := by
          apply mul_le_mul_of_nonneg_right habs (abs_nonneg _)
      _ = ((32768 : ℕ) : ℚ) := by norm_num
  have h7 : |s * 32767| ≤ ((32767 : ℕ) : ℚ) := by
    rw [abs_mul]
    calc |s| * |(32767 : ℚ)| ≤ 1 * |(32767 : ℚ)| := by
          apply mul_le_mul_of_nonneg_right habs (abs_nonneg _)
      _ = ((32767 : ℕ) : ℚ) := by norm_num
  obtain ⟨l8, u8⟩ := jsTrunc_bound _ _ h8
  obtain ⟨l7, u7⟩ := jsTrunc_bound _ _ h7
  by_cases h : s < -(1 / 2)
  · rw [if_pos (by linarith : (1 / 2 : ℚ) + s < 0), if_pos h,
      toInt32_eq_self (by omega) (by omega)]
  · rw [if_neg (by intro hc; exact h (by linarith)), if_neg h,
      toInt32_eq_self (by omega) (by omega)]

/-- Claim C1, amended: the Container Encoder produces each 16-bit output
sample by clamping the float sample to [-1, 1] and scaling asymmetrically
with threshold `-0.5`: a clamped value below `-0.5` is scaled by 32768 and
a clamped value at or above `-0.5` by 32767, truncated toward zero (the
source condition `0.5 + sample < 0` compares the clamped sample with
`-0.5`, not with `0`). -/
theorem encoderScaling_c1 (b : AudioBuffer) :
    bufferToWav b = wavHeader b ++
      ((List.range b.frameLen).map (fun off =>
        (b.channelData.map (fun chan =>
          int16LE (specScaleSampleAmended (chan.getD off 0)))).flatten)).flatten := by
  unfold bufferToWav pcmBytes frameBytes
  simp only [scale16_eq_amended]

/-- Claim C1, counterexample: on the clamped sample `-0.5` the encoder
emits the 16-bit value `-16383` (bytes `[1, 192]`), whereas the claimed
rule (negative values scaled by 32768) predicts `-16384` (bytes
`[0, 192]`). -/
theorem encoderScaling_c1_counterexample :
    (bufferToWav { sampleRate := 24000, channelData := [[-(1 / 2)]] }).drop 44 = [1, 192]
  ∧ int16LE (specScaleSample (-(1 / 2))) = [0, 192] := by
  constructor
  · norm_num [bufferToWav, wavHeader, pcmBytes, frameBytes, scale16, clampSample,
      jsTrunc, toInt32, int16LE, uint32LE, uint16LE, AudioBuffer.frameLen,
      AudioBuffer.numChannels, List.range_succ]
    decide
  · norm_num [int16LE, specScaleSample, clampSample, jsTrunc]
    decide

/-- Claim C5, amended: re-decoding an encoded sample with the decoder's
`/ 32768` scaling reproduces the clamped float sample within `±1/16384`
(= 2/32768); the bound `±1/32768` fails because positive samples are
encoded with factor 32767 but decoded with factor 32768. -/
theorem roundTrip_c5_amended (x : ℚ) :
    |clampSample x - decodeSample (scale16 x)| ≤ 1 / 16384 := by
  rw [scale16_eq_amended]
  unfold specScaleSampleAmended decodeSample jsTrunc
  obtain ⟨hl, hu⟩ := clampSample_mem x
  set c := clampSample x with hc
  by_cases h : c < -(1 / 2)
  · rw [if_pos h]
    have hcneg : c < 0 := by linarith
    have hq : c * 32768 < 0 := mul_neg_of_neg_of_pos hcneg (by norm_num)
    rw [if_pos hq]
    have f1 : ((Int.floor (-(c * 32768)) : ℚ)) ≤ -(c * 32768) := Int.floor_le _
    have f2 : -(c * 32768) < Int.floor (-(c * 32768)) + 1 := Int.lt_floor_add_one _
    rw [abs_le]
    constructor <;> push_cast <;> linarith
  · rw [if_neg h]
    have hge : -(1 / 2 : ℚ) ≤ c := by linarith [not_lt.mp h]
    by_cases hneg : c < 0
    · have hq : c * 32767 < 0 := mul_neg_of_neg_of_pos hneg (by norm_num)
      rw [if_pos hq]
      have f1 : ((Int.floor (-(c * 32767)) : ℚ)) ≤ -(c * 32767) := Int.floor_le _
      have f2 : -(c * 32767) < Int.floor (-(c * 32767)) + 1 := Int.lt_floor_add_one _
      rw [abs_le]
      constructor <;> push_cast <;> linarith
    · have hq : ¬ c * 32767 < 0 := by
        push_neg
        exact mul_nonneg (not_lt.mp hneg) (by norm_num)
      rw [if_neg hq]
      have f1 : ((Int.floor (c * 32767) : ℚ)) ≤ c * 32767 := Int.floor_le _
      have f2 : c * 32767 < Int.floor (c * 32767) + 1 := Int.lt_floor_add_one _
      rw [abs_le]
      constructor <;> push_cast <;> linarith

/-- Claim C5, counterexample: at the float sample `49153/65536`
(≈ 0.75002, exactly representable) the encoder emits `24575` and the
decoder reproduces `24575/32768`, an error of `3/65536 > 1/32768`. -/
theorem roundTrip_c5_counterexample :
    1 / 32768 < |clampSample (49153 / 65536) - decodeSample (scale16 (49153 / 65536))| := by
  have h1 : scale16 (49153 / 65536) = 24575 := by
    norm_num [scale16, clampSample, jsTrunc, toInt32]
  rw [h1]
  have h2 : clampSample (49153 / 65536) = 49153 / 65536 := by
    norm_num [clampSample]
  rw [h2]
  have h3 : decodeSample 24575 = 24575 / 32768 := by norm_num [decodeSample]
  rw [h3]
  rw [abs_of_nonneg (by norm_num)]
  norm_num

/-! ## The compositor and decoder claims -/

/-- Claim C2 (code_bug): compositing the empty segment list does not
succeed — `maxDuration` stays 0, so the `OfflineAudioContext` is
constructed with `length = Math.ceil(0 × 24000) = 0` and throws
`NotSupportedError`, where the claim (and the spec's stated intent of a
degenerate empty asset) says a zero-duration asset is produced without
error. -/
theorem emptyStitch_c2 :
    stitchAudio [] =
      Except.error ("NotSupportedError: zero length in OfflineAudioContext") := by
  have hlen : totalLength (maxDurationOf []) = 0 := by
    norm_num [totalLength, maxDurationOf]
  simp [stitchAudio, decodeSegments, hlen]

lemma bytesToInt16_cases : ∀ data : List Nat,
    (data.length % 2 = 0 → ∃ l, bytesToInt16 data = some l ∧ l.length = data.length / 2)
  ∧ (data.length % 2 = 1 → bytesToInt16 data = none)
  | [] => by
    constructor
    · intro _
      exact ⟨[], rfl, rfl⟩
    · intro h
      simp at h
  | [b] => by
    constructor
    · intro h
      simp at h
    · intro _
      rfl
  | lo :: hi :: rest => by
    obtain ⟨heven, hodd⟩ := bytesToInt16_cases rest
    constructor
    · intro h
      have hr : rest.length % 2 = 0 := by simp at h; omega
      obtain ⟨l, hl, hlen⟩ := heven hr
      refine ⟨int16FromBytes lo hi :: l, ?_, ?_⟩
      · unfold bytesToInt16
        rw [hl]
        rfl
      · simp [hlen]
        omega
    · intro h
      have hr : rest.length % 2 = 1 := by simp at h; omega
      unfold bytesToInt16
      rw [hodd hr]
      rfl

/-- Claim C4, amended: on an input with an even byte count holding at
least one full frame the decoder yields exactly
`⌊totalSampleCount / channelCount⌋` frames, silently dropping a trailing
partial frame; an even input with fewer samples than one full frame — in
particular the zero-length input — makes `ctx.createBuffer` throw a
`NotSupportedError` for its zero length, and an input with an odd byte
count makes `new Int16Array(data.buffer)` throw a `RangeError`, so a
trailing partial sample is an error rather than being dropped. -/
theorem decoderTotal_c4_amended (data : List Nat) (sampleRate numChannels : Nat)
    (hch : 0 < numChannels) (hch32 : numChannels ≤ 32) :
    (data.length % 2 = 0 → 0 < data.length / 2 / numChannels →
      decodedFrames (decodeAudioData data sampleRate numChannels) =
        some (data.length / 2 / numChannels))
  ∧ (data.length % 2 = 0 → data.length / 2 / numChannels = 0 →
      decodeAudioData data sampleRate numChannels =
        Except.error ("NotSupportedError: zero frame length in createBuffer"))
  ∧ (data.length % 2 = 1 →
      decodeAudioData data sampleRate numChannels =
        Except.error ("byte length of Int16Array should be a multiple of 2")) := by
  obtain ⟨heven, hodd⟩ := bytesToInt16_cases data
  have hguard : ¬ (numChannels = 0 ∨ 32 < numChannels) := by omega
  refine ⟨?_, ?_, ?_⟩
  · intro h hpos
    obtain ⟨l, hl, hlen⟩ := heven h
    obtain ⟨k, rfl⟩ : ∃ k, numChannels = k + 1 := ⟨numChannels - 1, by omega⟩
    unfold decodeAudioData
    rw [hl]
    simp only [hlen]
    rw [if_neg hguard, if_neg (by omega)]
    simp [decodedFrames, Except.toOption, AudioBuffer.frameLen, List.range_succ_eq_map]
  · intro h hzero
    obtain ⟨l, hl, hlen⟩ := heven h
    unfold decodeAudioData
    rw [hl]
    simp only [hlen]
    rw [if_neg hguard, if_pos hzero]
  · intro h
    unfold decodeAudioData
    rw [hodd h]

/-- Claim C4, counterexample: the 1-byte input is rejected with a range
error, so the decoder is not total and does not drop a trailing partial
sample. -/
theorem decoderTotal_c4_counterexample :
    decodeAudioData [0] 24000 1 =
      Except.error ("byte length of Int16Array should be a multiple of 2") := by
  rfl

/-- Witness for C4: a 6-byte stereo input (3 samples, 2 channels) decodes
to `⌊3 / 2⌋ = 1` frame, the trailing partial frame silently dropped. -/
theorem decoderTotal_c4_witness :
    decodedFrames (decodeAudioData [0, 0, 0, 0, 0, 0] 24000 2) = some 1 :=
  (decoderTotal_c4_amended [0, 0, 0, 0, 0, 0] 24000 2 (by decide) (by decide)).1
    (by decide) (by decide)

lemma decodeSegments_startTimes : ∀ (segments : List StitchSegment)
    (decoded : List (AudioBuffer × ℚ)),
    decodeSegments segments = Except.ok decoded →
    decoded.length = segments.length ∧
      ∀ p ∈ decoded, ∃ s ∈ segments, p.2 = s.startTime
  | [], decoded => by
    intro h
    simp [decodeSegments] at h
    subst h
    simp
  | segment :: rest, decoded => by
    intro h
    unfold decodeSegments at h
    cases hd : decodeAudioData segment.audioBytes 24000 1 with
    | error e => rw [hd] at h; exact absurd h (by simp)
    | ok b =>
      rw [hd] at h
      cases hr : decodeSegments rest with
      | error e => rw [hr] at h; exact absurd h (by simp [Except.map])
      | ok l =>
        rw [hr] at h
        simp [Except.map] at h
        subst h
        obtain ⟨hlen, hmem⟩ := decodeSegments_startTimes rest l hr
        constructor
        · simp [hlen]
        · intro p hp
          rcases List.mem_cons.mp hp with rfl | hp
          · exact ⟨segment, List.mem_cons_self _ _, rfl⟩
          · obtain ⟨s, hs, he⟩ := hmem p hp
            exact ⟨s, List.mem_cons_of_mem _ hs, he⟩

lemma duration_nonneg (b : AudioBuffer) : 0 ≤ b.duration := by
  unfold AudioBuffer.duration
  positivity

/-- Claim C3 (confirmed): for every non-empty segment list that decodes,
the composite track has `⌈maxEndTime × 24000⌉` frames where `maxEndTime`
is the greatest `startTime + duration`; in particular decoded segments of
1.0 s at 0, 1.0 s at 0.5 and 0.5 s at 2.0 give
`⌈24000 × 2.5⌉ = 60000` frames. -/
theorem frameCount_c3 (segments : List StitchSegment) (decoded : List (AudioBuffer × ℚ))
    (hne : segments ≠ []) (hnn : ∀ s ∈ segments, 0 ≤ s.startTime)
    (hdec : decodeSegments segments = Except.ok decoded) :
    ((renderOffline decoded).frameLen =
      (Int.ceil ((24000 : ℚ) * listMax (endTimes decoded))).toNat)
  ∧ (renderOffline
      [({ sampleRate := 24000, channelData := [List.replicate 24000 0] }, 0),
       ({ sampleRate := 24000, channelData := [List.replicate 24000 0] }, 1 / 2),
       ({ sampleRate := 24000, channelData := [List.replicate 12000 0] }, 2)]).frameLen
      = 60000 := by
  constructor
  · obtain ⟨hlen, hmem⟩ := decodeSegments_startTimes segments decoded hdec
    have hd_ne : decoded ≠ [] := by
      intro h
      apply hne
      rw [h] at hlen
      exact List.length_eq_zero.mp hlen.symm
    have hfold : maxDurationOf decoded = listMax (endTimes decoded) := by
      unfold maxDurationOf listMax endTimes
      cases decoded with
      | nil => exact absurd rfl hd_ne
      | cons p t =>
        have hp0 : 0 ≤ p.2 + p.1.duration := by
          obtain ⟨s, hs, he⟩ := hmem p (List.mem_cons_self _ _)
          have := hnn s hs
          have := duration_nonneg p.1
          rw [he]
          linarith
        simp only [List.map_cons, List.headD_cons, List.foldl_cons]
        rw [List.foldl_map, max_eq_right hp0, max_self]
    have hflen : (renderOffline decoded).frameLen = totalLength (maxDurationOf decoded) := by
      simp [renderOffline, AudioBuffer.frameLen]
    rw [hflen, hfold, totalLength, mul_comm]
  · have h1 : maxDurationOf
      [({ sampleRate := 24000, channelData := [List.replicate 24000 (0 : ℚ)] }, (0 : ℚ)),
       ({ sampleRate := 24000, channelData := [List.replicate 24000 0] }, 1 / 2),
       ({ sampleRate := 24000, channelData := [List.replicate 12000 0] }, 2)] = 5 / 2 := by
      norm_num [maxDurationOf, AudioBuffer.duration, AudioBuffer.frameLen]
    simp only [renderOffline, AudioBuffer.frameLen, List.headD_cons, List.length_map,
      List.length_range, h1]
    norm_num [totalLength]
    decide

/-- Witness for C3: a single 1-frame segment at start time 0 decodes and
yields `⌈24000 × (1/24000)⌉ = 1` frame. -/
theorem frameCount_c3_witness :
    ((renderOffline [({ sampleRate := 24000, channelData := [[0]] }, 0)]).frameLen =
      (Int.ceil ((24000 : ℚ) *
        listMax (endTimes [({ sampleRate := 24000, channelData := [[0]] }, 0)]))).toNat) := by
  have hdec : decodeSegments [{ audioBytes := [0, 0], startTime := 0 }] =
      Except.ok [({ sampleRate := 24000, channelData := [[0]] }, 0)] := by
    norm_num [decodeSegments, decodeAudioData, bytesToInt16, int16FromBytes, decodeSample,
      Except.map, List.range_succ]
  exact (frameCount_c3 [{ audioBytes := [0, 0], startTime := 0 }]
    [({ sampleRate := 24000, channelData := [[0]] }, 0)]
    (by simp) (by intro s hs; simp at hs; rw [hs]) hdec).1

/-! ## The sync controller claims -/

/-- Claim C6 (confirmed): on a scheduled sync check while the video plays,
a drift of at most 0.25 s leaves the audio position unchanged, and a drift
above 0.25 s sets the audio position to the video position in that single
check. -/
theorem driftCheck_c6 (s : DVPState) (hm : s.unmounted = false) (hp : s.videoPaused = false) :
    (|s.videoTime - s.audioTime| ≤ 1 / 4 → (syncLoopBody s).audioTime = s.audioTime)
  ∧ (1 / 4 < |s.videoTime - s.audioTime| → (syncLoopBody s).audioTime = s.videoTime) := by
  unfold syncLoopBody driftCorrect
  rw [if_pos ⟨hm, hp⟩]
  constructor
  · intro h
    rw [if_neg (not_lt.mpr h)]
    rfl
  · intro h
    rw [if_pos h]
    rfl

/-- Witness for C6: drift of exactly 0.3 s is corrected to the video
position on the next check, drift of exactly 0.2 s is left alone. -/
theorem driftCheck_c6_witness :
    (syncLoopBody { videoTime := 3 / 10, audioTime := 0, videoPaused := false,
                    audioPaused := false, frameId := none, outstanding := [],
                    nextId := 1, unmounted := false }).audioTime = 3 / 10
  ∧ (syncLoopBody { videoTime := 1 / 5, audioTime := 0, videoPaused := false,
                    audioPaused := false, frameId := none, outstanding := [],
                    nextId := 1, unmounted := false }).audioTime = 0 := by
  constructor
  · exact (driftCheck_c6 _ rfl rfl).2 (by rw [abs_of_nonneg (by norm_num)]; norm_num)
  · exact (driftCheck_c6 _ rfl rfl).1 (by rw [abs_of_nonneg (by norm_num)]; norm_num)

/-- Claim C7 (confirmed): the `seeked` handler sets the audio position to
the video position for every live state, with no condition on the drift
magnitude. -/
theorem seekResync_c7 (s : DVPState) (hm : s.unmounted = false) :
    (handleSeeked s).audioTime = s.videoTime := by
  unfold handleSeeked
  rw [if_pos hm]

/-- Witness for C7: a drift of only 0.01 s still resyncs on seek. -/
theorem seekResync_c7_witness :
    (handleSeeked { videoTime := 101 / 100, audioTime := 1, videoPaused := false,
                    audioPaused := false, frameId := none, outstanding := [],
                    nextId := 1, unmounted := false }).audioTime = 101 / 100 :=
  seekResync_c7 _ rfl

/-- At most one scheduled token is pending, and when one is pending the
`animationFrameId` ref holds exactly it. -/
def TokenInv (s : DVPState) : Prop :=
  s.outstanding = [] ∨ ∃ t, s.outstanding = [t] ∧ s.frameId = some t

lemma cancelFrame_outstanding (s : DVPState) (h : TokenInv s) :
    (cancelFrame s).outstanding = [] := by
  unfold cancelFrame
  rcases h with h | ⟨t, ho, hf⟩
  · cases hfi : s.frameId with
    | none => simpa using h
    | some u => simp [h]
  · rw [hf]
    simp [ho]

lemma requestFrame_tokenInv (s : DVPState) (h : s.outstanding = []) :
    TokenInv (requestFrame s) :=
  Or.inr ⟨s.nextId, by simp [requestFrame, h], rfl⟩

lemma tokenInv_reachable {s : DVPState} (h : Reachable s) : TokenInv s := by
  induction h with
  | init => exact Or.inl rfl
  | play hr hm ih =>
    unfold handlePlay
    rw [if_pos (by simpa using hm)]
    apply requestFrame_tokenInv
    apply cancelFrame_outstanding
    rcases ih with h0 | ⟨t, ho, hf⟩
    · exact Or.inl h0
    · exact Or.inr ⟨t, ho, hf⟩
  | pause hr hm ih =>
    unfold handlePauseOrEnd
    rw [if_pos (by simpa using hm)]
    left
    apply cancelFrame_outstanding
    rcases ih with h0 | ⟨t, ho, hf⟩
    · exact Or.inl h0
    · exact Or.inr ⟨t, ho, hf⟩
  | ended hr hm ih =>
    unfold handlePauseOrEnd
    rw [if_pos (by simpa using hm)]
    left
    apply cancelFrame_outstanding
    rcases ih with h0 | ⟨t, ho, hf⟩
    · exact Or.inl h0
    · exact Or.inr ⟨t, ho, hf⟩
  | seeked t hr hm ih =>
    unfold handleSeeked
    split
    · rcases ih with h0 | ⟨u, ho, hf⟩
      · exact Or.inl h0
      · exact Or.inr ⟨u, ho, hf⟩
    · rcases ih with h0 | ⟨u, ho, hf⟩
      · exact Or.inl h0
      · exact Or.inr ⟨u, ho, hf⟩
  | frame t hr hmem ih =>
    rcases ih with h0 | ⟨u, ho, hf⟩
    · rw [h0] at hmem
      exact absurd hmem (by simp)
    · rw [ho] at hmem
      have ht : t = u := by simpa using hmem
      subst ht
      unfold syncLoopBody driftCorrect
      split
      · apply requestFrame_tokenInv
        split
        · simp [ho]
        · simp [ho]
      · left
        simp [ho]
  | transport v a hr ih =>
    rcases ih with h0 | ⟨u, ho, hf⟩
    · exact Or.inl h0
    · exact Or.inr ⟨u, ho, hf⟩
  | unmount hr hm ih =>
    unfold unmountCleanup
    left
    apply cancelFrame_outstanding
    rcases ih with h0 | ⟨u, ho, hf⟩
    · exact Or.inl h0
    · exact Or.inr ⟨u, ho, hf⟩

/-- Claim C8 (confirmed): at every reachable controller state at most one
scheduled correction-check token is outstanding — the play handler cancels
before rescheduling and the pause, ended and unmount paths cancel the
pending token. -/
theorem singleToken_c8 (s : DVPState) (h : Reachable s) : s.outstanding.length ≤ 1 := by
  rcases tokenInv_reachable h with h0 | ⟨t, ht, _⟩
  · simp [h0]
  · simp [ht]

/-- Witness for C8: the state right after a play event is reachable and
has at most one outstanding token. -/
theorem singleToken_c8_witness :
    (handlePlay { initState with videoPaused := false }).outstanding.length ≤ 1 :=
  singleToken_c8 _ (Reachable.play Reachable.init rfl)

/-! ## The dub generation claims -/

lemma firstMissingVoice_finds (voiceMap : String → Option String) (muted : Nat → Bool) :
    ∀ (script : List TimedChunk) (base : Nat),
    (∃ j, ∃ hj : j < script.length, muted (base + j) = false ∧
      falsyVoice (voiceMap (script.get ⟨j, hj⟩).speaker) = true) →
    ∃ speaker, firstMissingVoice voiceMap muted script base = some speaker ∧
      ∃ chunk, chunk ∈ script ∧ falsyVoice (voiceMap chunk.speaker) = true ∧
        speaker = chunk.speaker
  | [], base => by
    rintro ⟨j, hj, _⟩
    exact absurd hj (by simp)
  | c :: rest, base => by
    rintro ⟨j, hj, hmut, hfal⟩
    by_cases hm0 : muted base
    · cases j with
      | zero =>
        rw [Nat.add_zero] at hmut
        rw [hmut] at hm0
        exact absurd hm0 (by simp)
      | succ j' =>
        have hj' : j' < rest.length := by simpa using hj
        have hmut' : muted (base + 1 + j') = false := by
          rw [show base + 1 + j' = base + (j' + 1) by omega]
          exact hmut
        have hfal' : falsyVoice (voiceMap (rest.get ⟨j', hj'⟩).speaker) = true := by
          simpa [List.get_cons_succ] using hfal
        obtain ⟨sp, hres, chunk, hmem, hcf, hceq⟩ :=
          firstMissingVoice_finds voiceMap muted rest (base + 1) ⟨j', hj', hmut', hfal'⟩
        refine ⟨sp, ?_, chunk, List.mem_cons_of_mem _ hmem, hcf, hceq⟩
        unfold firstMissingVoice
        rw [if_pos hm0]
        exact hres
    · by_cases hf0 : falsyVoice (voiceMap c.speaker)
      · refine ⟨c.speaker, ?_, c, List.mem_cons_self _ _, hf0, rfl⟩
        unfold firstMissingVoice
        rw [if_neg hm0, if_pos hf0]
      · cases j with
        | zero =>
          rw [Nat.add_zero] at hmut
          simp only [List.get] at hfal
          exact absurd hfal (by simpa using hf0)
        | succ j' =>
          have hj' : j' < rest.length := by simpa using hj
          have hmut' : muted (base + 1 + j') = false := by
            rw [show base + 1 + j' = base + (j' + 1) by omega]
            exact hmut
          have hfal' : falsyVoice (voiceMap (rest.get ⟨j', hj'⟩).speaker) = true := by
            simpa [List.get_cons_succ] using hfal
          obtain ⟨sp, hres, chunk, hmem, hcf, hceq⟩ :=
            firstMissingVoice_finds voiceMap muted rest (base + 1) ⟨j', hj', hmut', hfal'⟩
          refine ⟨sp, ?_, chunk, List.mem_cons_of_mem _ hmem, hcf, hceq⟩
          unfold firstMissingVoice
          rw [if_neg hm0, if_neg hf0]
          exact hres

/-- Claim C9 (confirmed): when any unmuted segment's speaker has no
assigned voice, dub generation aborts with an error that names an
unassigned speaker of the script and the dubbed-audio result stays
unset — no partial asset is produced. -/
theorem missingVoice_c9 (script : List TimedChunk) (dialog : Nat → Option String)
    (voiceMap : String → Option String) (muted : Nat → Bool)
    (tts : String → String → Option (List Nat))
    (i : Nat) (hi : i < script.length) (hmut : muted i = false)
    (hv : voiceMap (script.get ⟨i, hi⟩).speaker = none) :
    (handleGenerateDub script dialog voiceMap muted tts).2 = none
  ∧ ∃ speaker, (handleGenerateDub script dialog voiceMap muted tts).1 =
      some ("No voice selected for " ++ speaker ++ ". Please select a voice.")
    ∧ ∃ chunk, chunk ∈ script ∧ falsyVoice (voiceMap chunk.speaker) = true
      ∧ speaker = chunk.speaker := by
  have hex : ∃ j, ∃ hj : j < script.length, muted (0 + j) = false ∧
      falsyVoice (voiceMap (script.get ⟨j, hj⟩).speaker) = true := by
    refine ⟨i, hi, by simpa using hmut, ?_⟩
    rw [hv]
    rfl
  obtain ⟨sp, hres, chunk, hmem, hcf, hceq⟩ :=
    firstMissingVoice_finds voiceMap muted script 0 hex
  have hne : ¬ (script.isEmpty = true) := by
    cases script with
    | nil => exact absurd hi (by simp)
    | cons c t => simp
  unfold handleGenerateDub generateSegments
  rw [if_neg hne, hres]
  exact ⟨rfl, sp, rfl, chunk, hmem, hcf, hceq⟩

/-- Witness for C9: a one-line script whose speaker has no voice aborts
with the speaker-naming error and no dubbed asset. -/
theorem missingVoice_c9_witness :
    (handleGenerateDub [{ start := 0, endTime := 1, text := "Hi", speaker := "SPEAKER_01" }]
      (fun _ => none) (fun _ => none) (fun _ => false) (fun _ _ => some [])).2 = none
  ∧ ∃ speaker,
      (handleGenerateDub [{ start := 0, endTime := 1, text := "Hi", speaker := "SPEAKER_01" }]
        (fun _ => none) (fun _ => none) (fun _ => false) (fun _ _ => some [])).1 =
        some ("No voice selected for " ++ speaker ++ ". Please select a voice.")
    ∧ ∃ chunk,
        chunk ∈ ([{ start := 0, endTime := 1, text := "Hi", speaker := "SPEAKER_01" }] :
          List TimedChunk)
        ∧ falsyVoice ((fun _ => (none : Option String)) chunk.speaker) = true
        ∧ speaker = chunk.speaker :=
  missingVoice_c9 _ _ _ _ _ 0 (by decide) rfl rfl

/-- Claim C10 (confirmed): the synthesized text is the custom dialog when
it is non-empty and the original transcript text otherwise (in particular
a custom dialog cleared to the empty string falls back to the
transcript), and the `.` placeholder is substituted exactly when the
chosen text is empty or whitespace-only. -/
theorem dialogText_c10 (custom : Option String) (orig : String) :
    ((custom = none ∨ custom = some ("")) → textToGenerate custom orig = orig)
  ∧ (∀ s, custom = some s → ¬ s = "" → textToGenerate custom orig = s)
  ∧ ((textToGenerate custom orig).toList.all Char.isWhitespace = true →
      finalTextOf (textToGenerate custom orig) = ".")
  ∧ ((textToGenerate custom orig).toList.all Char.isWhitespace = false →
      finalTextOf (textToGenerate custom orig) = textToGenerate custom orig) := by
  refine ⟨?_, ?_, ?_, ?_⟩
  · rintro (rfl | rfl)
    · rfl
    · simp [textToGenerate]
  · rintro s rfl hs
    simp [textToGenerate, hs]
  · intro h
    unfold finalTextOf
    rw [h]
    rfl
  · intro h
    unfold finalTextOf
    rw [h]
    rfl

/-- Witness for C10: clearing the custom dialog to the empty string makes
the transcript text the synthesized text, and an all-whitespace custom
dialog is replaced by the period placeholder. -/
theorem dialogText_c10_witness :
    textToGenerate (some ("")) ("hello") = "hello"
  ∧ finalTextOf (textToGenerate (some (" ")) ("hello")) = "." :=
  ⟨(dialogText_c10 (some ("")) ("hello")).1 (Or.inr rfl),
   (dialogText_c10 (some (" ")) ("hello")).2.2.1 (by decide)⟩

/-- Witness for C1: the amended per-sample characterization evaluated on a
concrete one-sample buffer. -/
theorem encoderScaling_c1_witness :
    bufferToWav { sampleRate := 24000, channelData := [[1 / 4]] } =
      wavHeader { sampleRate := 24000, channelData := [[1 / 4]] } ++
      ((List.range (AudioBuffer.frameLen
          { sampleRate := 24000, channelData := [[1 / 4]] })).map (fun off =>
        (List.map (fun chan =>
          int16LE (specScaleSampleAmended (chan.getD off 0))) [[(1 : ℚ) / 4]]).flatten)).flatten :=
  encoderScaling_c1 { sampleRate := 24000, channelData := [[1 / 4]] }

/-- Witness for C5: the amended round-trip bound evaluated at the sample
`1/4`. -/
theorem roundTrip_c5_witness :
    |clampSample (1 / 4) - decodeSample (scale16 (1 / 4))| ≤ 1 / 16384 :=
  roundTrip_c5_amended (1 / 4)
